import Mathlib

/-!
Verification development for the Plush writer-toolkit text-analysis pipeline
(`streamlit_writer_tool.py`). The pure pipeline functions are embedded as
executable Lean definitions over `String` / `List Char`; external library
behaviour (NLTK segmentation, textstat metrics, stopword corpus) is modelled
from the specification and marked as such in doc comments.
-/

set_option maxRecDepth 4000

namespace Plush

/-- The straight double-quote character (U+0022). -/
def dq : Char := Char.ofNat 34

/-- The straight single-quote / apostrophe character (U+0027). -/
def sq : Char := Char.ofNat 39

/-- Whitespace as recognised by Python `str.split` / regex `\s`
(ASCII whitespace plus the common Unicode space characters). -/
def isPySpace (c : Char) : Bool :=
  c == ' ' || c == '\t' || c == '\n' || c == '\r' ||
  c == Char.ofNat 11 || c == Char.ofNat 12 ||
  c == Char.ofNat 28 || c == Char.ofNat 29 || c == Char.ofNat 30 ||
  c == Char.ofNat 31 || c == Char.ofNat 133 || c == Char.ofNat 160 ||
  c == Char.ofNat 0x2028 || c == Char.ofNat 0x2029 || c == Char.ofNat 0x3000

/-- Word character, as in regex `\w` (letters, digits, underscore). -/
def isWordChar (c : Char) : Bool := c.isAlphanum || c == '_'

/-- ASCII capital letter, as in the regex class `[A-Z]`. -/
def isUpperAZ (c : Char) : Bool := 'A' ≤ c && c ≤ 'Z'

/-- ASCII letter, as in the regex class `[a-zA-Z]`. -/
def isLetterAZ (c : Char) : Bool := ('a' ≤ c && c ≤ 'z') || ('A' ≤ c && c ≤ 'Z')

/-- Python `str.lower` (charwise, ASCII range). -/
def pyLower (s : List Char) : List Char := s.map Char.toLower

/-- Python `str.strip()`: drop leading and trailing whitespace. -/
def pyStrip (s : List Char) : List Char :=
  ((s.dropWhile isPySpace).reverse.dropWhile isPySpace).reverse

/-- Python `str.strip()` on `String`. -/
def pyStripStr (s : String) : String := String.mk (pyStrip s.data)

/-- Python `str.replace(old, new)` for a single-character pattern:
every occurrence of the character `old` is replaced by `new`. -/
def repl1 (old new : Char) (s : List Char) : List Char :=
  s.map (fun d => if d = old then new else d)

/-- Python `"--".replace` step of the normalizer: left-to-right,
non-overlapping replacement of the two-character pattern `--` by an em dash. -/
def replDD : List Char → List Char
  | [] => []
  | [c] => [c]
  | c :: d :: r =>
    if c == '-' && d == '-' then '—' :: replDD r
    else c :: replDD (d :: r)

/-- Whether a list of characters contains two adjacent hyphens (an
occurrence of the `--` pattern). -/
def hasDD : List Char → Bool
  | c :: d :: r => (c == '-' && d == '-') || hasDD (d :: r)
  | _ => false

/-- Python `str.split()` (split on whitespace runs, dropping empty fields),
written with an accumulator for the word being built (in reverse). -/
def splitAux : List Char → List Char → List (List Char)
  | [], acc => if acc = [] then [] else [acc.reverse]
  | c :: cs, acc =>
    if isPySpace c then
      if acc = [] then splitAux cs [] else acc.reverse :: splitAux cs []
    else splitAux cs (c :: acc)

/-- Python `str.split()` with no arguments. -/
def pySplit (s : List Char) : List (List Char) := splitAux s []

/-- Python `sep.join(parts)` at the character-list level. -/
def joinSepL (sep : List Char) : List (List Char) → List Char
  | [] => []
  | [x] => x
  | x :: y :: xs => x ++ sep ++ joinSepL sep (y :: xs)

/-- Python `sep.join(parts)` on `String`. -/
def joinSep (sep : String) : List String → String
  | [] => ""
  | [x] => x
  | x :: y :: xs => x ++ sep ++ joinSep sep (y :: xs)

/-- Greedy prefix test on character lists (used in place of regex literal
matching and Python substring scans). -/
def isPre : List Char → List Char → Bool
  | [], _ => true
  | _ :: _, [] => false
  | p :: ps, c :: cs => p == c && isPre ps cs

/-- Python substring containment (`pat in s`). -/
def containsSub (pat : List Char) : List Char → Bool
  | [] => decide (pat = [])
  | c :: cs => isPre pat (c :: cs) || containsSub pat cs

/-- Python `str.count(pat)` for a non-empty pattern: number of
non-overlapping occurrences, scanning left to right.  The first argument is
fuel (one more than the length of the scanned list suffices). -/
def countSubF : Nat → List Char → List Char → Nat
  | 0, _, _ => 0
  | _ + 1, _, [] => 0
  | fuel + 1, pat, c :: cs =>
    if isPre pat (c :: cs) then 1 + countSubF fuel pat (cs.drop (pat.length - 1))
    else countSubF fuel pat cs

/-- Python `str.count(pat)` (non-empty pattern). -/
def countSub (pat s : List Char) : Nat := countSubF (s.length + 1) pat s

/-- Source `clean_text`: replace curly double quotes by straight double quotes,
curly single quotes by straight single quotes, `--` by an em dash, then
collapse whitespace via `' '.join(text.split())`. -/
def clean_text (text : String) : String :=
  let s1 := repl1 '“' dq text.data
  let s2 := repl1 '”' dq s1
  let s3 := repl1 '‘' sq s2
  let s4 := repl1 '’' sq s3
  let s5 := replDD s4
  String.mk (joinSepL [' '] (pySplit s5))

/-- Source `FILLER_WORDS` catalog. -/
def FILLER_WORDS : List String :=
  ["just", "really", "very", "that", "actually",
   "like", "maybe", "somewhat", "perhaps", "quite"]

/-- Source `CLICHES` catalog. -/
def CLICHES : List String :=
  ["needle in a haystack", "cold sweat", "chill ran down",
   "time stood still", "dead silence", "at the end of the day",
   "low-hanging fruit", "the calm before the storm", "head over heels",
   "in the nick of time", "plenty of fish in the sea", "easy as pie",
   "scared stiff", "raining cats and dogs", "think outside the box",
   "every cloud has a silver lining", "pushing up daisies",
   "barking up the wrong tree", "blood ran cold", "fit as a fiddle"]

/-- Source `STYLE_PRESETS`: name, emphasis, note (insertion order of the dict). -/
def STYLE_PRESETS : List (String × String × String) :=
  [("Gritty", "Cliché detection, passive voice, long sentences",
    "Highlights harshness and realism — cracks down on clichés and overwritten prose."),
   ("Snappy", "Filler words, punchy structure, dialogue ratio",
    "Focuses on rhythm, minimalism, and active scenes."),
   ("Poetic", "Flow, sentence variety, rhythm",
    "Tolerates longer prose, flags broken rhythm or repetition."),
   ("Technical", "Passive voice, clarity, redundancy",
    "Suited for nonfiction or precise procedural tone."),
   ("Sparse", "Minimal filler, clarity, clean structure",
    "Zero fluff. Cuts verbosity. Favors clean delivery.")]

/-- Python `style in STYLE_PRESETS` plus the dict lookup: the emphasis and
note of the named preset, if recognised. -/
def lookupStyle (style : String) : Option (String × String) :=
  (STYLE_PRESETS.find? (fun p => p.1 == style)).map (fun p => p.2)

/-- Modelled from the spec: the fixed external English stopword list
(NLTK `stopwords.words('english')` is external library data); represented as
a constant catalog of common English stopwords. -/
def STOPWORDS : List String :=
  ["i", "me", "my", "we", "our", "you", "your", "he", "him", "his", "she",
   "her", "it", "its", "they", "them", "their", "what", "which", "who",
   "this", "that", "these", "those", "am", "is", "are", "was", "were", "be",
   "been", "being", "have", "has", "had", "do", "does", "did", "a", "an",
   "the", "and", "but", "if", "or", "because", "as", "until", "while", "of",
   "at", "by", "for", "with", "about", "against", "between", "into",
   "through", "during", "before", "after", "above", "below", "to", "from",
   "up", "down", "in", "out", "on", "off", "over", "under", "again", "then",
   "once", "here", "there", "when", "where", "why", "how", "all", "any",
   "both", "each", "few", "more", "most", "other", "some", "such", "no",
   "nor", "not", "only", "own", "same", "so", "than", "too", "very", "can",
   "will", "just", "don", "should", "now"]

/-- Modelled from the spec: sentence segmentation (the source calls the
external NLTK Punkt tokenizer).  Rule-based boundary detection: a sentence
ends at terminal punctuation `.`, `!` or `?` that is followed by whitespace
(or the end of the text); the whitespace between sentences is dropped.
The accumulator holds the current sentence in reverse. -/
def punktAux : List Char → List Char → List (List Char)
  | [], acc => if acc = [] then [] else [acc.reverse]
  | c :: cs, acc =>
    if c == '.' || c == '!' || c == '?' then
      match cs with
      | [] => [(c :: acc).reverse]
      | d :: _ =>
        if isPySpace d then (c :: acc).reverse :: punktAux cs []
        else punktAux cs (c :: acc)
    else
      if isPySpace c && acc = [] then punktAux cs []
      else punktAux cs (c :: acc)

/-- Modelled from the spec: the sentence segmenter used by all extractors
(`PunktSentenceTokenizer().tokenize`). -/
def punkt_tokenize (text : String) : List String :=
  (punktAux text.data []).map String.mk

/-- Modelled from the spec: NLTK `wordpunct_tokenize`, i.e. the regex
`\w+|[^\w\s]+` — maximal runs of word characters, or maximal runs of
non-word non-space characters, with whitespace discarded.  The state holds
the kind (true = word run) and reversed characters of the current token. -/
def wordpunctAux : List Char → Option (Bool × List Char) → List (List Char)
  | [], none => []
  | [], some (_, acc) => [acc.reverse]
  | c :: cs, none =>
    if isWordChar c then wordpunctAux cs (some (true, [c]))
    else if isPySpace c then wordpunctAux cs none
    else wordpunctAux cs (some (false, [c]))
  | c :: cs, some (k, acc) =>
    if isWordChar c then
      if k then wordpunctAux cs (some (true, c :: acc))
      else acc.reverse :: wordpunctAux cs (some (true, [c]))
    else if isPySpace c then acc.reverse :: wordpunctAux cs none
    else
      if k then acc.reverse :: wordpunctAux cs (some (false, [c]))
      else wordpunctAux cs (some (false, c :: acc))

/-- Modelled from the spec: NLTK `wordpunct_tokenize` on `String`. -/
def wordpunct_tokenize (s : String) : List String :=
  (wordpunctAux s.data none).map String.mk

/-! ### The passive-voice regex

`\b(was|were|is being|are being|has been|have been|had been)\b\s+\w+ed\b`,
hand-compiled.  The flag `ci` is true for `re.IGNORECASE`
(`detect_passive_voice`) and false for the plain `re.search` in
`suggest_improvements`. -/

/-- The auxiliary alternatives of the passive-voice pattern. -/
def AUX_PHRASES : List String :=
  ["was", "were", "is being", "are being", "has been", "have been", "had been"]

/-- Single-character match, optionally case-insensitive. -/
def charMatch (ci : Bool) (p c : Char) : Bool :=
  if ci then p.toLower == c.toLower else p == c

/-- Literal prefix match, optionally case-insensitive. -/
def prefixCI (ci : Bool) : List Char → List Char → Bool
  | [], _ => true
  | _ :: _, [] => false
  | p :: ps, c :: cs => charMatch ci p c && prefixCI ci ps cs

/-- Does the run end in the two letters `ed` (case per flag)? -/
def endsED (ci : Bool) (run : List Char) : Bool :=
  match run.reverse with
  | d :: e :: _ => charMatch ci 'd' d && charMatch ci 'e' e
  | _ => false

/-- After the auxiliary: `\s+\w+ed\b`, i.e. at least one whitespace
character, then a maximal word-character run of length ≥ 3 ending in `ed`
(the `\b` after `ed` forces the `ed` to close the maximal run). -/
def tailMatch (ci : Bool) (t : List Char) : Bool :=
  let sp := t.takeWhile isPySpace
  if sp = [] then false
  else
    let run := (t.drop sp.length).takeWhile isWordChar
    decide (3 ≤ run.length) && endsED ci run

/-- One auxiliary alternative matching at the head of `s`, with the rest of
the pattern after it.  The `\b` closing the group is subsumed by `\s+`. -/
def auxHere (ci : Bool) (s : List Char) : Bool :=
  AUX_PHRASES.any (fun a => prefixCI ci a.data s && tailMatch ci (s.drop a.data.length))

/-- The `\b` opening the group: the previous character (if any) is not a
word character (the group itself always starts with a letter). -/
def boundaryOK : Option Char → Bool
  | none => true
  | some p => !isWordChar p

/-- Scan for a match of the passive pattern anywhere, carrying the previous
character for the word-boundary test. -/
def passiveAux (ci : Bool) : Option Char → List Char → Bool
  | _, [] => false
  | prev, c :: cs => (boundaryOK prev && auxHere ci (c :: cs)) || passiveAux ci (some c) cs

/-- Python `re.search` of the passive-voice pattern over a whole string. -/
def passiveSearch (ci : Bool) (s : List Char) : Bool := passiveAux ci none s

/-! ### Modelled textstat metrics -/

/-- Modelled from the spec: `textstat.sentence_count` (external library);
the number of sentences under the segmentation of the Segmenter. -/
def sentence_count (text : String) : Nat := (punkt_tokenize text).length

/-- Modelled from the spec: a crude syllable count (the source delegates to
the external textstat library): the number of maximal vowel groups in the
lowercased text. -/
def vowelGroups : List Char → Bool → Nat
  | [], _ => 0
  | c :: cs, inGroup =>
    let v := c == 'a' || c == 'e' || c == 'i' || c == 'o' || c == 'u' || c == 'y'
    if v && !inGroup then 1 + vowelGroups cs true
    else vowelGroups cs v

/-- Modelled from the spec: syllable count of a text. -/
def syllable_count (text : String) : Nat := vowelGroups (pyLower text.data) false

/-- An exact fraction `num/den` (positive denominator), standing in for the
Python floats produced by the modelled textstat metrics. -/
structure PyFrac where
  num : Int
  den : Int

/-- Modelled from the spec: `textstat.words_per_sentence` (external library):
word count over sentence count, 0 when there are no sentences. -/
def words_per_sentence (text : String) : PyFrac :=
  let w := (pySplit text.data).length
  let s := sentence_count text
  if s = 0 then ⟨0, 1⟩ else ⟨w, s⟩

/-- Modelled from the spec: `textstat.flesch_kincaid_grade` (external
library): the standard published formula
`0.39 * (words/sentences) + 11.8 * (syllables/words) - 15.59`, 0 on empty
input (the library's zero-division guard).  Written over the common
denominator `100 * s * w`. -/
def flesch_kincaid_grade (text : String) : PyFrac :=
  let w : Int := (pySplit text.data).length
  let s : Int := sentence_count text
  let syl : Int := syllable_count text
  if w = 0 ∨ s = 0 then ⟨0, 1⟩
  else ⟨39 * w * w + 1180 * syl * s - 1559 * s * w, 100 * s * w⟩

/-- Python `format(x, ".2f")` on a fraction (round to two decimals). -/
def format2f (q : PyFrac) : String :=
  let m : Int := Int.ediv (200 * q.num + q.den) (2 * q.den)
  let sign := if m < 0 then "-" else ""
  let a := m.natAbs
  let ip := a / 100
  let fp := a % 100
  sign ++ toString ip ++ "." ++ (if fp < 10 then "0" else "") ++ toString fp

/-! ### Suggestion engine and passive-voice extractor -/

/-- Source `suggest_improvements` filler density of one sentence:
`sum(sentence.lower().count(fw) for fw in FILLER_WORDS)` — substring
occurrences, not whole tokens. -/
def fillerDensity (sentence : String) : Nat :=
  (FILLER_WORDS.map (fun fw => countSub fw.data (pyLower sentence.data))).sum

/-- Source `suggest_improvements`, per-sentence `issues` list: long sentence
(more than 30 wordpunct tokens), passive pattern (case-SENSITIVE
`re.search`), filler density above 2. -/
def sentenceIssues (sentence : String) : List String :=
  (if (wordpunct_tokenize sentence).length > 30 then
    ["⚠️ Consider breaking this long sentence into two or more."] else [])
  ++ (if passiveSearch false sentence.data then
    ["💡 Try rephrasing in active voice."] else [])
  ++ (if fillerDensity sentence > 2 then
    ["✂️ This line may be padded with filler words."] else [])

/-- Source `suggest_improvements`. -/
def suggest_improvements (text : String) : String :=
  let blocks := (punkt_tokenize text).enum.filterMap (fun p =>
    let issues := sentenceIssues p.2
    if issues = [] then none
    else some ("\nSentence " ++ toString (p.1 + 1) ++ ":\n“"
      ++ pyStripStr p.2 ++ "”\n" ++ joinSep "\n" issues))
  if blocks = [] then "✅ No smart suggestions needed — looking solid!"
  else joinSep "\n" blocks

/-- Source `detect_passive_voice`: for each sentence matching the
case-INSENSITIVE passive pattern, the pair of its 1-based ordinal and its
stripped text. -/
def detect_passive_voice (text : String) : List (Nat × String) :=
  (punkt_tokenize text).enum.filterMap (fun p =>
    if passiveSearch true p.2.data then some (p.1 + 1, pyStripStr p.2) else none)

/-- The set of sentences for which `suggest_improvements` emits the
passive-voice advisory, with the same ordinals and stripped text as
`detect_passive_voice` reports; read off the `sentenceIssues` code path
(the comparison side of the refinement claim). -/
def suggestPassiveFindings (text : String) : List (Nat × String) :=
  (punkt_tokenize text).enum.filterMap (fun p =>
    if "💡 Try rephrasing in active voice." ∈ sentenceIssues p.2 then
      some (p.1 + 1, pyStripStr p.2)
    else none)

/-! ### Report composer -/

/-- The whole-token filler count of `analyze_text`:
`text.lower().split().count(w)`. -/
def fillerTokenCount (text w : String) : Nat :=
  (pySplit (pyLower text.data)).count w.data

/-- The frequency-counter token list of `analyze_text`: wordpunct tokens of
the lowercased text, alphabetic only, stopwords removed. -/
def freqWords (text : String) : List String :=
  (wordpunct_tokenize (String.mk (pyLower text.data))).filter
    (fun w => w.data.all Char.isAlpha && w.data ≠ [] && !(STOPWORDS.contains w))

/-- Python `collections.Counter` as an association list in first-occurrence
order. -/
def counter (xs : List String) : List (String × Nat) :=
  xs.foldl (fun acc x =>
    if acc.any (fun p => p.1 == x) then
      acc.map (fun p => if p.1 == x then (p.1, p.2 + 1) else p)
    else acc ++ [(x, 1)]) []

/-- Stable descending insertion (by count) used to model the stable sort
behind `Counter.most_common`. -/
def insertDesc (x : String × Nat) : List (String × Nat) → List (String × Nat)
  | [] => [x]
  | y :: ys => if y.2 < x.2 then x :: y :: ys else y :: insertDesc x ys

/-- Python `Counter.most_common()`: entries sorted by descending count, ties kept
in first-occurrence order (Python's sort is stable). -/
def mostCommon (l : List (String × Nat)) : List (String × Nat) :=
  l.foldl (fun acc x => insertDesc x acc) []

/-- Source `analyze_text` style-preset header block (empty when the style is
not a recognised preset name). -/
def styleHeader (style : String) : List String :=
  match lookupStyle style with
  | some p =>
    ["🎨 Style Preset: " ++ style, "🔎 Focus: " ++ p.1,
     "_Note: " ++ p.2 ++ "_", ""]
  | none => []

/-- Source `analyze_text`, the style-independent part of the `report` list
(summary statistics, filler counts, long sentences, frequent words, passive
voice, suggestions). -/
def analysisBody (text : String) : List String :=
  ["📊 Analysis Report:",
   "• Total words: " ++ toString (pySplit text.data).length,
   "• Total sentences: " ++ toString (sentence_count text),
   "• Avg sentence length: " ++ format2f (words_per_sentence text) ++ " words",
   "• Reading grade level: " ++ format2f (flesch_kincaid_grade text),
   "",
   "🔎 Common Filler Words Found:"]
  ++ (FILLER_WORDS.filterMap (fun w =>
        let c := fillerTokenCount text w
        if c > 0 then some ("   - " ++ w ++ ": " ++ toString c) else none))
  ++ ["\n⚠️ Long Sentences (over 30 words):"]
  ++ ((punkt_tokenize text).enum.filterMap (fun p =>
        let wc := (wordpunct_tokenize p.2).length
        if wc > 30 then
          some ("\nSentence " ++ toString (p.1 + 1) ++ " (" ++ toString wc
            ++ " words):\n" ++ p.2)
        else none))
  ++ ["\n📈 Top 5 Most Frequent Words (excl. stopwords):"]
  ++ ((mostCommon (counter (freqWords text))).take 5 |>.map (fun p =>
        "   - " ++ p.1 ++ ": " ++ toString p.2))
  ++ ["\n🕵️ Potential Passive Voice Sentences:"]
  ++ (let passive := detect_passive_voice text
      if passive ≠ [] then
        passive.map (fun p => "\nSentence " ++ toString p.1 ++ ":\n" ++ p.2)
      else ["   None found ✅"])
  ++ ["\n🤖 Smart Suggestions:", suggest_improvements text]

/-- Source `analyze_text`. -/
def analyze_text (text : String) (style : String) : String :=
  joinSep "\n" (styleHeader style ++ analysisBody text)

/-! ### Dialogue extractor -/

/-- Scanner for `re.findall` of `[“"]([^“”"]+)[”"]`: an opening quote
(curly-open or straight), a non-empty run without any quote character, and a
closing quote (curly-close or straight).  State: `none` = outside a
candidate span, `some acc` = inside one (reversed content so far).  A failed
candidate restarts exactly where the regex engine would retry. -/
def dlgAux : List Char → Option (List Char) → List (List Char)
  | [], _ => []
  | c :: cs, none =>
    if c = '“' ∨ c = dq then dlgAux cs (some []) else dlgAux cs none
  | c :: cs, some acc =>
    if c = '”' ∨ c = dq then
      if acc = [] then
        if c = dq then dlgAux cs (some []) else dlgAux cs none
      else acc.reverse :: dlgAux cs none
    else if c = '“' then dlgAux cs (some [])
    else dlgAux cs (some (c :: acc))

/-- Source `extract_dialogue`: the matches, stripped, empty ones dropped,
joined by newlines. -/
def extract_dialogue (text : String) : String :=
  joinSep "\n" (((dlgAux text.data none).map (fun m => String.mk (pyStrip m))).filter
    (fun m => m ≠ ""))

/-- Follows the spec wording for the Dialogue extractor (the comparison side
of the claim): substrings enclosed in MATCHING double quotes — straight with
straight, curly-open with curly-close.  The state carries the closing quote
required by the opener. -/
def dlgSpecAux : List Char → Option (Char × List Char) → List (List Char)
  | [], _ => []
  | c :: cs, none =>
    if c = '“' then dlgSpecAux cs (some ('”', []))
    else if c = dq then dlgSpecAux cs (some (dq, []))
    else dlgSpecAux cs none
  | c :: cs, some (q, acc) =>
    if c = q then
      if acc = [] then dlgSpecAux cs none
      else acc.reverse :: dlgSpecAux cs none
    else dlgSpecAux cs (some (q, c :: acc))

/-- Spec-side dialogue extraction with style-matched quote pairs. -/
def extract_dialogue_matched_spec (text : String) : String :=
  joinSep "\n" (((dlgSpecAux text.data none).map (fun m => String.mk (pyStrip m))).filter
    (fun m => m ≠ ""))

/-! ### Speaker attributor -/

/-- The fixed reporting verbs of `dialogue_by_character`. -/
def VERBS : List String :=
  ["said", "asked", "replied", "whispered", "shouted", "cried", "muttered",
   "yelled", "snapped", "called"]

/-- After a closed straight-quoted span: `\s+(?:verb)\s+([A-Z][a-zA-Z]*)`.
Returns the captured speaker name and the rest of the text after the match.
No reporting verb is a prefix of another, so `find?` over the alternation is
exact. -/
def tryVerbName (t : List Char) : Option (List Char × List Char) :=
  let sp1 := t.takeWhile isPySpace
  if sp1 = [] then none
  else
    let t1 := t.drop sp1.length
    match VERBS.find? (fun v => isPre v.data t1) with
    | none => none
    | some v =>
      let t2 := t1.drop v.data.length
      let sp2 := t2.takeWhile isPySpace
      if sp2 = [] then none
      else
        match t2.drop sp2.length with
        | [] => none
        | c :: cs =>
          if isUpperAZ c then
            let run := cs.takeWhile isLetterAZ
            some (c :: run, cs.drop run.length)
          else none

/-- Scanner for `re.findall` of
`"[^"]+?"\s+(?:said|…|called)\s+([A-Z][a-zA-Z]*)`: straight quotes only.
The first argument is fuel (one more than the length of the scanned list
suffices); on a failed continuation the scan resumes at the closing quote,
exactly where the regex engine finds its next candidate. -/
def dbcScanF : Nat → List Char → List (List Char)
  | 0, _ => []
  | _ + 1, [] => []
  | fuel + 1, c :: cs =>
    if c = dq then
      let content := cs.takeWhile (fun d => d ≠ dq)
      let rest := cs.drop content.length
      match rest with
      | [] => []
      | _ :: after =>
        if content = [] then dbcScanF fuel rest
        else
          match tryVerbName after with
          | some (name, rest2) => name :: dbcScanF fuel rest2
          | none => dbcScanF fuel rest
    else dbcScanF fuel cs

/-- The captured speaker names of `dialogue_by_character`, in match order. -/
def dialogue_matches (text : String) : List String :=
  (dbcScanF (text.data.length + 1) text.data).map String.mk

/-- Per-speaker line counts, most common first. -/
def speakerCounts (text : String) : List (String × Nat) :=
  mostCommon (counter (dialogue_matches text))

/-- Source `dialogue_by_character`. -/
def dialogue_by_character (text : String) : String :=
  if dialogue_matches text = [] then "No named characters found."
  else
    "🧍 Dialogue by Character:\n"
    ++ joinSep "\n" ((speakerCounts text).map (fun p =>
        "   - " ++ p.1 ++ ": " ++ toString p.2 ++ " lines"))

/-! ### Clichés and the full report -/

/-- Source `find_cliches`. -/
def find_cliches (text : String) : String :=
  let found := (CLICHES.filter (fun ph => containsSub ph.data (pyLower text.data))).map
    (fun ph => "• " ++ ph)
  if found ≠ [] then "\n💣 Clichés Found:\n" ++ joinSep "\n" found
  else "✅ No clichés found!"

/-- Source `export_full_report`.  The timestamp produced by
`datetime.now().strftime(...)` is the only impure input; it is lifted to the
explicit parameter `now`. -/
def export_full_report (now : String) (text : String) (style : String) : String :=
  joinSep "\n\n"
    ["🗂 Plush: Full Report\nGenerated: " ++ now,
     analyze_text text style,
     String.mk (List.replicate 50 '='),
     dialogue_by_character text,
     String.mk (List.replicate 50 '='),
     "🗣 Extracted Dialogue:\n" ++ extract_dialogue text,
     String.mk (List.replicate 50 '='),
     find_cliches text,
     String.mk (List.replicate 50 '='),
     "🖤 Crafted by Bastian — Plush Edition for writtenbybc.com"]

/-! ## Theorems -/

/-- C1 (counterexample): contrary to the claim, `detect_passive_voice` does
NOT flag "The ball was thrown by John." — the pattern requires a word ending
in "ed" after the auxiliary, and the irregular participle "thrown" does not
end in "ed". -/
theorem detect_passive_thrown_not_flagged :
    detect_passive_voice "The ball was thrown by John." = [] := by decide

/-- C1 (amended): `detect_passive_voice` flags neither
"The ball was thrown by John." (irregular participle, no "ed" ending) nor
"The ball rolled down the hill."; a regular-participle passive such as
"The ball was carried by John." is flagged. -/
theorem detect_passive_examples :
    detect_passive_voice "The ball was thrown by John." = []
    ∧ detect_passive_voice "The ball rolled down the hill." = []
    ∧ detect_passive_voice "The ball was carried by John."
        = [(1, "The ball was carried by John.")] := by
  refine ⟨by decide, by decide, by decide⟩

/-- C4 (counterexample): `extract_dialogue` pairs a curly opening quote with
a STRAIGHT closing quote, so its result is not "exactly the substrings
enclosed in matching double quotes (straight with straight, curly-open with
curly-close)": on the input `“Hi"` the code extracts "Hi" while the
matched-style extraction of the claim yields nothing. -/
theorem extract_dialogue_mixed_quotes :
    extract_dialogue "“Hi\"" = "Hi"
    ∧ extract_dialogue_matched_spec "“Hi\"" = ""
    ∧ extract_dialogue "“Hi\"" ≠ extract_dialogue_matched_spec "“Hi\"" := by
  refine ⟨by decide, by decide, by decide⟩

/-- C4 (amended): `extract_dialogue` returns the trimmed substrings enclosed
between an opening quote (straight or curly-open) and the next closing quote
(straight or curly-close), allowing the two styles to mix; whitespace-only
matches are dropped and document order is preserved.  In particular the
round-trip example returns exactly the two lines, and the mixed-quote input
`“Hi"` yields `Hi`. -/
theorem extract_dialogue_examples :
    extract_dialogue "He said \"Hello there.\" Then she said \"Goodbye.\""
      = "Hello there.\nGoodbye."
    ∧ extract_dialogue "“Hi\"" = "Hi" := by
  refine ⟨by decide, by decide⟩

/-- C3 (counterexample): on empty input the filler-word section of
`analyze_text "" "None"` is empty — its header is immediately followed by
the long-sentence header — so the report does not contain a "none found"
sentinel in EACH findings section as the claim states (only the
passive-voice and suggestions sections have sentinels). -/
theorem analyze_empty_no_filler_sentinel :
    containsSub ("🔎 Common Filler Words Found:\n\n⚠️ Long Sentences" : String).data
        (analyze_text "" "None").data = true
    ∧ containsSub ("None found" : String).data
        ("🔎 Common Filler Words Found:\n\n⚠️ Long Sentences (over 30 words):\n\n📈 Top 5 Most Frequent Words (excl. stopwords):" : String).data
        = false := by
  refine ⟨by decide, by decide⟩

/-- C3 (amended): `analyze_text "" "None"` is total and returns the report
with zero counts; the passive-voice and suggestions sections carry "none
found"-style sentinels, while the filler-word, long-sentence and
frequent-word sections are bare headers with no entries and no sentinel. -/
theorem analyze_empty_report :
    analyze_text "" "None"
      = "📊 Analysis Report:\n• Total words: 0\n• Total sentences: 0\n• Avg sentence length: 0.00 words\n• Reading grade level: 0.00\n\n🔎 Common Filler Words Found:\n\n⚠️ Long Sentences (over 30 words):\n\n📈 Top 5 Most Frequent Words (excl. stopwords):\n\n🕵️ Potential Passive Voice Sentences:\n   None found ✅\n\n🤖 Smart Suggestions:\n✅ No smart suggestions needed — looking solid!" := by
  decide

lemma mem_insertDesc {x z : String × Nat} :
    ∀ {l : List (String × Nat)}, z ∈ insertDesc x l → z = x ∨ z ∈ l := by
  intro l
  induction l with
  | nil => intro h; simp [insertDesc] at h; exact Or.inl h
  | cons y ys ih =>
    intro h
    by_cases hy : y.2 < x.2
    · simp [insertDesc, hy] at h
      rcases h with h | h | h
      · exact Or.inl h
      · exact Or.inr (by simp [h])
      · exact Or.inr (by simp [h])
    · simp [insertDesc, hy] at h
      rcases h with h | h
      · exact Or.inr (by simp [h])
      · rcases ih h with h' | h'
        · exact Or.inl h'
        · exact Or.inr (by simp [h'])

lemma insertDesc_sorted {x : String × Nat} :
    ∀ {l : List (String × Nat)}, l.Pairwise (fun a b => b.2 ≤ a.2) →
      (insertDesc x l).Pairwise (fun a b => b.2 ≤ a.2) := by
  intro l
  induction l with
  | nil => intro _; simp [insertDesc]
  | cons y ys ih =>
    intro h
    rcases List.pairwise_cons.mp h with ⟨hy, hys⟩
    by_cases hlt : y.2 < x.2
    · simp only [insertDesc, if_pos hlt]
      refine List.pairwise_cons.mpr ⟨?_, h⟩
      intro z hz
      rcases List.mem_cons.mp hz with rfl | hz'
      · exact Nat.le_of_lt hlt
      · exact Nat.le_trans (hy z hz') (Nat.le_of_lt hlt)
    · simp only [insertDesc, if_neg hlt]
      refine List.pairwise_cons.mpr ⟨?_, ih hys⟩
      intro z hz
      rcases mem_insertDesc hz with rfl | hz'
      · exact Nat.le_of_not_lt hlt
      · exact hy z hz'

lemma foldl_insertDesc_sorted :
    ∀ (l : List (String × Nat)) (acc : List (String × Nat)),
      acc.Pairwise (fun a b => b.2 ≤ a.2) →
      (l.foldl (fun acc x => insertDesc x acc) acc).Pairwise (fun a b => b.2 ≤ a.2) := by
  intro l
  induction l with
  | nil => intro acc h; simpa using h
  | cons x xs ih => intro acc h; exact ih _ (insertDesc_sorted h)

lemma mostCommon_sorted (l : List (String × Nat)) :
    (mostCommon l).Pairwise (fun a b => b.2 ≤ a.2) :=
  foldl_insertDesc_sorted l [] (by simp)

/-- C8: the speaker attributor pairs each straight-double-quoted span with a
following reporting verb and capitalized name; on the example it reports
Maria with 2 lines, and for every input the reported per-speaker counts are
sorted in descending order of count. -/
theorem dialogue_by_character_maria_sorted :
    dialogue_by_character "\"I am leaving,\" said Maria. \"Wait!\" shouted Maria."
      = "🧍 Dialogue by Character:\n   - Maria: 2 lines"
    ∧ ∀ text : String, (speakerCounts text).Pairwise (fun a b => b.2 ≤ a.2) :=
  ⟨by decide, fun text => mostCommon_sorted _⟩

/-- C9: in `suggest_improvements` the filler density of a sentence is the
sum over the 10 filler words of case-insensitive SUBSTRING occurrences, and
the filler advisory fires exactly when that sum exceeds 2.  On
"unlikely thats maybe fine" the substring density is 3 ("like" inside
"unlikely", "that" inside "thats", plus "maybe") and the advisory fires,
while the whole-token counting of `analyze_text` totals only 1. -/
theorem filler_density_advisory :
    (∀ s : String,
      "✂️ This line may be padded with filler words." ∈ sentenceIssues s
        ↔ fillerDensity s > 2)
    ∧ fillerDensity "unlikely thats maybe fine" = 3
    ∧ (FILLER_WORDS.map (fillerTokenCount "unlikely thats maybe fine")).sum = 1
    ∧ "✂️ This line may be padded with filler words."
        ∈ sentenceIssues "unlikely thats maybe fine" := by
  refine ⟨?_, by decide, by decide, by decide⟩
  intro s
  unfold sentenceIssues
  by_cases h1 : (wordpunct_tokenize s).length > 30 <;>
    by_cases h2 : passiveSearch false s.data = true <;>
      by_cases h3 : fillerDensity s > 2 <;>
        simp [h1, h2, h3]

lemma charMatch_mono {p c : Char} (h : charMatch false p c = true) :
    charMatch true p c = true := by
  simp only [charMatch, if_true, if_false, beq_iff_eq, Bool.false_eq_true,
    reduceIte] at h ⊢
  exact congrArg Char.toLower h

lemma prefixCI_mono : ∀ {p s : List Char},
    prefixCI false p s = true → prefixCI true p s = true := by
  intro p
  induction p with
  | nil => intro s _; simp [prefixCI]
  | cons a as ih =>
    intro s h
    cases s with
    | nil => simp [prefixCI] at h
    | cons c cs =>
      simp only [prefixCI, Bool.and_eq_true] at h ⊢
      exact ⟨charMatch_mono h.1, ih h.2⟩

lemma endsED_mono {run : List Char} (h : endsED false run = true) :
    endsED true run = true := by
  unfold endsED at h ⊢
  cases hr : run.reverse with
  | nil => rw [hr] at h; simp at h
  | cons d tl =>
    cases tl with
    | nil => rw [hr] at h; simp at h
    | cons e tl2 =>
      rw [hr] at h
      have h' : (charMatch false 'd' d && charMatch false 'e' e) = true := h
      show (charMatch true 'd' d && charMatch true 'e' e) = true
      simp only [Bool.and_eq_true] at h' ⊢
      exact ⟨charMatch_mono h'.1, charMatch_mono h'.2⟩

lemma tailMatch_mono {t : List Char} (h : tailMatch false t = true) :
    tailMatch true t = true := by
  unfold tailMatch at h ⊢
  by_cases hsp : t.takeWhile isPySpace = []
  · rw [if_pos hsp] at h; cases h
  · rw [if_neg hsp] at h ⊢
    simp only [Bool.and_eq_true] at h ⊢
    exact ⟨h.1, endsED_mono h.2⟩

lemma auxHere_mono {s : List Char} (h : auxHere false s = true) :
    auxHere true s = true := by
  unfold auxHere at h ⊢
  rcases List.any_eq_true.mp h with ⟨a, ha, hpred⟩
  refine List.any_eq_true.mpr ⟨a, ha, ?_⟩
  simp only [Bool.and_eq_true] at hpred ⊢
  exact ⟨prefixCI_mono hpred.1, tailMatch_mono hpred.2⟩

lemma passiveAux_mono : ∀ (s : List Char) (prev : Option Char),
    passiveAux false prev s = true → passiveAux true prev s = true := by
  intro s
  induction s with
  | nil => intro prev h; simp [passiveAux] at h
  | cons c cs ih =>
    intro prev h
    simp only [passiveAux, Bool.or_eq_true, Bool.and_eq_true] at h ⊢
    rcases h with h | h
    · exact Or.inl ⟨h.1, auxHere_mono h.2⟩
    · exact Or.inr (ih _ h)

lemma passiveSearch_mono {s : List Char} (h : passiveSearch false s = true) :
    passiveSearch true s = true := passiveAux_mono s none h

lemma filterMap_mono_sublist {α β : Type} (f g : α → Option β)
    (h : ∀ a b, f a = some b → g a = some b) :
    ∀ l : List α, List.Sublist (l.filterMap f) (l.filterMap g) := by
  intro l
  induction l with
  | nil => simp
  | cons a l ih =>
    rw [List.filterMap_cons, List.filterMap_cons]
    cases hf : f a with
    | none =>
      cases hg : g a with
      | none => exact ih
      | some b => exact List.sublist_cons_of_sublist b ih
    | some b => rw [h a b hf]; exact ih.cons₂ b

lemma advisory_implies_passive {s : String}
    (h : "💡 Try rephrasing in active voice." ∈ sentenceIssues s) :
    passiveSearch true s.data = true := by
  unfold sentenceIssues at h
  rcases List.mem_append.mp h with h' | h3
  · rcases List.mem_append.mp h' with h1 | h2
    · by_cases hc : (wordpunct_tokenize s).length > 30
      · rw [if_pos hc] at h1
        exact absurd (List.mem_singleton.mp h1) (by decide)
      · rw [if_neg hc] at h1; cases h1
    · by_cases hc : passiveSearch false s.data = true
      · exact passiveSearch_mono hc
      · rw [if_neg hc] at h2; cases h2
  · by_cases hc : fillerDensity s > 2
    · rw [if_pos hc] at h3
      exact absurd (List.mem_singleton.mp h3) (by decide)
    · rw [if_neg hc] at h3; cases h3

/-- C2 (counterexample): the two passive evaluations are NOT the same — the
pattern in `suggest_improvements` is case-sensitive while
`detect_passive_voice` compiles it with `re.IGNORECASE` — so on
"It WAS KICKED hard." the detector flags sentence 1 but the suggestion
engine emits no passive advisory. -/
theorem suggest_detect_passive_mismatch :
    suggestPassiveFindings "It WAS KICKED hard." = []
    ∧ detect_passive_voice "It WAS KICKED hard." = [(1, "It WAS KICKED hard.")]
    ∧ suggestPassiveFindings "It WAS KICKED hard."
      ≠ detect_passive_voice "It WAS KICKED hard." := by
  refine ⟨by decide, by decide, by decide⟩

/-- C2 (amended): over the same segmentation and with matching ordinals and
sentence text, the set of sentences receiving the passive-voice advisory
from `suggest_improvements` is a sublist of the set flagged by
`detect_passive_voice`: both evaluate the same pattern, but the suggestion
engine matches case-sensitively while the detector matches
case-insensitively, so uppercase passives are flagged only by the
detector. -/
theorem suggest_passive_sublist_detect (text : String) :
    List.Sublist (suggestPassiveFindings text) (detect_passive_voice text) := by
  unfold suggestPassiveFindings detect_passive_voice
  apply filterMap_mono_sublist
  intro p b hb
  by_cases hc : "💡 Try rephrasing in active voice." ∈ sentenceIssues p.2
  · rw [if_pos hc] at hb
    rw [if_pos (advisory_implies_passive hc)]
    exact hb
  · rw [if_neg hc] at hb; cases hb

lemma dbcScanF_no_dq : ∀ (fuel : Nat) (s : List Char), dq ∉ s → dbcScanF fuel s = [] := by
  intro fuel
  induction fuel with
  | zero => intro s _; rfl
  | succ n ih =>
    intro s hs
    cases s with
    | nil => rfl
    | cons c cs =>
      have hc : ¬ c = dq := fun h => hs (h ▸ List.mem_cons_self c cs)
      simp only [dbcScanF, if_neg hc]
      exact ih cs (fun h => hs (List.mem_cons_of_mem c h))

/-- C10: the speaker attributor recognises only straight double quotes: any
input containing no straight double quote (in particular, dialogue quoted
exclusively with curly quotes) yields the "No named characters found."
sentinel — even on an input where `extract_dialogue` returns a non-empty
dialogue line. -/
theorem dialogue_by_character_straight_only :
    (∀ text : String, dq ∉ text.data →
      dialogue_by_character text = "No named characters found.")
    ∧ dialogue_by_character "“Hi,” said Maria." = "No named characters found."
    ∧ extract_dialogue "“Hi,” said Maria." = "Hi," := by
  refine ⟨?_, by decide, by decide⟩
  intro text h
  have hm : dialogue_matches text = [] := by
    unfold dialogue_matches
    rw [dbcScanF_no_dq _ _ h]
    rfl
  unfold dialogue_by_character
  rw [if_pos hm]

/-- Witness for C10 at a concrete curly-quoted input. -/
theorem dialogue_by_character_straight_only_witness :
    dialogue_by_character "“Wait!” shouted Maria." = "No named characters found." :=
  dialogue_by_character_straight_only.1 "“Wait!” shouted Maria." (by decide)

lemma joinSep_cons_ne (sep x : String) {l : List String} (h : l ≠ []) :
    joinSep sep (x :: l) = x ++ sep ++ joinSep sep l := by
  cases l with
  | nil => exact absurd rfl h
  | cons y ys => rfl

lemma analysisBody_ne_nil (text : String) : analysisBody text ≠ [] := by
  unfold analysisBody
  simp

lemma joinSep_header4 (a b c : String) {l : List String} (h : l ≠ []) :
    joinSep "\n" (a :: b :: c :: "" :: l)
      = a ++ "\n" ++ b ++ "\n" ++ c ++ "\n\n" ++ joinSep "\n" l := by
  cases l with
  | nil => exact absurd rfl h
  | cons y ys =>
    apply String.ext
    simp only [joinSep, String.data_append, List.append_assoc]
    rfl

/-- C5: style selection is cosmetic only.  With a recognised preset name the
report of `analyze_text` is exactly the four preset header lines followed by
`analyze_text text "None"`; with any unrecognised style name it is exactly
`analyze_text text "None"`. -/
theorem analyze_style_frame (text style : String) :
    (∀ e n, lookupStyle style = some (e, n) →
      analyze_text text style =
        "🎨 Style Preset: " ++ style ++ "\n🔎 Focus: " ++ e
          ++ "\n_Note: " ++ n ++ "_\n\n" ++ analyze_text text "None")
    ∧ (lookupStyle style = none →
      analyze_text text style = analyze_text text "None") := by
  have hnone : styleHeader "None" = [] := rfl
  constructor
  · intro e n h
    have hdr : styleHeader style =
        ["🎨 Style Preset: " ++ style, "🔎 Focus: " ++ e, "_Note: " ++ n ++ "_", ""] := by
      unfold styleHeader
      rw [h]
    unfold analyze_text
    rw [hdr, hnone, List.nil_append, List.cons_append, List.cons_append,
      List.cons_append, List.cons_append, List.nil_append,
      joinSep_header4 _ _ _ (analysisBody_ne_nil text)]
    apply String.ext
    simp only [String.data_append, List.append_assoc]
    rfl
  · intro h
    have hdr : styleHeader style = [] := by
      unfold styleHeader
      rw [h]
    unfold analyze_text
    rw [hdr, hnone]

/-- Witness for C5 at the "Gritty" preset and an unrecognised name. -/
theorem analyze_style_frame_witness :
    analyze_text "Hi." "Gritty" =
      "🎨 Style Preset: " ++ "Gritty" ++ "\n🔎 Focus: "
        ++ "Cliché detection, passive voice, long sentences"
        ++ "\n_Note: "
        ++ "Highlights harshness and realism — cracks down on clichés and overwritten prose."
        ++ "_\n\n" ++ analyze_text "Hi." "None"
    ∧ analyze_text "Hi." "Bogus" = analyze_text "Hi." "None" :=
  ⟨(analyze_style_frame "Hi." "Gritty").1 _ _ rfl,
   (analyze_style_frame "Hi." "Bogus").2 rfl⟩

/-- C7: `analyze_text` is a pure function of its two arguments — two calls
with identical arguments are identical — and the only timestamp lives in
`export_full_report`, whose output determines the `now` parameter (so the
generated-timestamp header really is embedded there, and nowhere in
`analyze_text`, which takes no clock input at all). -/
theorem analyze_deterministic_export_timestamp (text style : String) :
    analyze_text text style = analyze_text text style
    ∧ ∀ t1 t2 : String,
        export_full_report t1 text style = export_full_report t2 text style →
          t1 = t2 := by
  refine ⟨rfl, ?_⟩
  intro t1 t2 h
  unfold export_full_report at h
  have h2 := congrArg String.data h
  simp only [joinSep, String.data_append, List.append_assoc] at h2
  exact String.ext (List.append_cancel_right (List.append_cancel_left h2))

/-- Witness for C7 at concrete arguments and a concrete timestamp. -/
theorem analyze_deterministic_export_timestamp_witness :
    analyze_text "Hi." "None" = analyze_text "Hi." "None"
    ∧ ("2025-01-01 00:00:00" : String) = "2025-01-01 00:00:00" :=
  ⟨(analyze_deterministic_export_timestamp "Hi." "None").1,
   (analyze_deterministic_export_timestamp "Hi." "None").2 _ _ rfl⟩

/-! ### Lemmas for the idempotence of the normalizer -/

lemma mem_repl1 {a old new : Char} {s : List Char} (h : a ∈ repl1 old new s) :
    a ∈ s ∨ a = new := by
  rcases List.mem_map.mp h with ⟨b, hb, hba⟩
  by_cases hbo : b = old
  · rw [if_pos hbo] at hba
    exact Or.inr hba.symm
  · rw [if_neg hbo] at hba
    exact Or.inl (hba ▸ hb)

lemma not_mem_repl1 {old new : Char} {s : List Char} (hne : ¬ old = new) :
    old ∉ repl1 old new s := by
  intro h
  rcases List.mem_map.mp h with ⟨b, _, hba⟩
  by_cases hbo : b = old
  · rw [if_pos hbo] at hba
    exact hne hba.symm
  · rw [if_neg hbo] at hba
    exact hbo hba

lemma not_mem_repl1_of {a old new : Char} {s : List Char}
    (h : a ∉ s) (hne : ¬ a = new) : a ∉ repl1 old new s := by
  intro hm
  rcases mem_repl1 hm with h' | h'
  · exact h h'
  · exact hne h'

lemma repl1_id {old new : Char} : ∀ {s : List Char}, old ∉ s → repl1 old new s = s := by
  intro s
  induction s with
  | nil => intro _; rfl
  | cons c cs ih =>
    intro h
    have hc : ¬ c = old := fun he => h (he ▸ List.mem_cons_self c cs)
    show (if c = old then new else c) :: repl1 old new cs = c :: cs
    rw [if_neg hc, ih (fun hm => h (List.mem_cons_of_mem c hm))]

lemma mem_replDD : ∀ {s : List Char} {a : Char}, a ∈ replDD s → a ∈ s ∨ a = '—' := by
  intro s
  induction s using replDD.induct with
  | case1 => intro a h; cases h
  | case2 c => intro a h; exact Or.inl h
  | case3 c d r hcond ih =>
    intro a h
    rw [replDD, if_pos hcond] at h
    rcases List.mem_cons.mp h with rfl | h'
    · exact Or.inr rfl
    · rcases ih h' with h'' | h''
      · exact Or.inl (List.mem_cons_of_mem _ (List.mem_cons_of_mem _ h''))
      · exact Or.inr h''
  | case4 c d r hcond ih =>
    intro a h
    rw [replDD, if_neg hcond] at h
    rcases List.mem_cons.mp h with rfl | h'
    · exact Or.inl (List.mem_cons_self _ _)
    · rcases ih h' with h'' | h''
      · exact Or.inl (List.mem_cons_of_mem _ h'')
      · exact Or.inr h''

lemma not_mem_replDD_of {a : Char} {s : List Char}
    (h : a ∉ s) (hne : ¬ a = '—') : a ∉ replDD s := by
  intro hm
  rcases mem_replDD hm with h' | h'
  · exact h h'
  · exact hne h'

lemma hasDD_cons_ne {x : Char} (hx : (x == '-') = false) (l : List Char) :
    hasDD (x :: l) = hasDD l := by
  cases l with
  | nil => rfl
  | cons y ys =>
    show ((x == '-' && y == '-') || hasDD (y :: ys)) = hasDD (y :: ys)
    rw [hx, Bool.false_and, Bool.false_or]

lemma hasDD_tail {x : Char} {l : List Char} (h : hasDD l = true) :
    hasDD (x :: l) = true := by
  cases l with
  | nil => cases h
  | cons y ys =>
    show ((x == '-' && y == '-') || hasDD (y :: ys)) = true
    rw [h, Bool.or_true]

lemma hasDD_append_right : ∀ (a b : List Char), hasDD a = true → hasDD (a ++ b) = true := by
  intro a
  induction a with
  | nil => intro b h; cases h
  | cons c cs ih =>
    intro b h
    cases cs with
    | nil => cases h
    | cons d ds =>
      have h' : ((c == '-' && d == '-') || hasDD (d :: ds)) = true := h
      show ((c == '-' && d == '-') || hasDD (d :: (ds ++ b))) = true
      rcases Bool.or_eq_true_iff.mp h' with h1 | h2
      · rw [h1, Bool.true_or]
      · have := ih b h2
        rw [show (d :: ds) ++ b = d :: (ds ++ b) from rfl] at this
        rw [this, Bool.or_true]

lemma hasDD_append_left : ∀ (a b : List Char), hasDD b = true → hasDD (a ++ b) = true := by
  intro a
  induction a with
  | nil => intro b h; exact h
  | cons c cs ih => intro b h; exact hasDD_tail (ih b h)

lemma hasDD_within {t s : List Char} (h : t <:+: s) (ht : hasDD t = true) :
    hasDD s = true := by
  obtain ⟨p, q, rfl⟩ := h
  exact hasDD_append_right _ _ (hasDD_append_left _ _ ht)

lemma replDD_cons_ne {d : Char} (hd : (d == '-') = false) (r : List Char) :
    ∃ z, replDD (d :: r) = d :: z := by
  cases r with
  | nil => exact ⟨[], rfl⟩
  | cons e rs =>
    refine ⟨replDD (e :: rs), ?_⟩
    rw [replDD, if_neg ?_]
    intro hcond
    rw [hd, Bool.false_and] at hcond
    cases hcond

lemma hasDD_replDD : ∀ s : List Char, hasDD (replDD s) = false := by
  intro s
  induction s using replDD.induct with
  | case1 => rfl
  | case2 c => rfl
  | case3 c d r hcond ih =>
    rw [replDD, if_pos hcond, hasDD_cons_ne (by decide)]
    exact ih
  | case4 c d r hcond ih =>
    rw [replDD, if_neg hcond]
    by_cases hc : (c == '-') = true
    · have hd : (d == '-') = false := by
        cases hdb : d == '-'
        · rfl
        · exact absurd (by rw [hc, hdb]; rfl) hcond
      obtain ⟨z, hz⟩ := replDD_cons_ne hd r
      rw [hz]
      show ((c == '-' && d == '-') || hasDD (d :: z)) = false
      rw [hd, Bool.and_false, Bool.false_or, ← hz]
      exact ih
    · rw [hasDD_cons_ne (Bool.not_eq_true _ ▸ hc)]
      exact ih

lemma replDD_id : ∀ {s : List Char}, hasDD s = false → replDD s = s := by
  intro s
  induction s using replDD.induct with
  | case1 => intro _; rfl
  | case2 c => intro _; rfl
  | case3 c d r hcond ih =>
    intro h
    have : hasDD (c :: d :: r) = true := by
      show ((c == '-' && d == '-') || hasDD (d :: r)) = true
      rw [hcond, Bool.true_or]
    rw [this] at h
    cases h
  | case4 c d r hcond ih =>
    intro h
    have h' : ((c == '-' && d == '-') || hasDD (d :: r)) = false := h
    have htl : hasDD (d :: r) = false := by
      rcases Bool.or_eq_false_iff.mp h' with ⟨_, h2⟩
      exact h2
    rw [replDD, if_neg hcond, ih htl]

lemma infix_append_left_of {t X : List Char} (Y : List Char) (h : t <:+: X) :
    t <:+: Y ++ X := by
  obtain ⟨p, q, rfl⟩ := h
  exact ⟨Y ++ p, q, by simp [List.append_assoc]⟩

lemma infix_cons_of {t X : List Char} (c : Char) (h : t <:+: X) :
    t <:+: c :: X := by
  obtain ⟨p, q, rfl⟩ := h
  exact ⟨c :: p, q, rfl⟩

lemma mem_joinSepL (sep : List Char) :
    ∀ (L : List (List Char)) (a : Char), a ∈ joinSepL sep L →
      (∃ t ∈ L, a ∈ t) ∨ a ∈ sep := by
  intro L
  induction L with
  | nil => intro a h; cases h
  | cons t L ih =>
    intro a h
    cases L with
    | nil => exact Or.inl ⟨t, List.mem_singleton_self t, h⟩
    | cons u us =>
      rw [show joinSepL sep (t :: u :: us) = t ++ sep ++ joinSepL sep (u :: us) from rfl] at h
      rcases List.mem_append.mp h with h' | h3
      · rcases List.mem_append.mp h' with h1 | h2
        · exact Or.inl ⟨t, List.mem_cons_self _ _, h1⟩
        · exact Or.inr h2
      · rcases ih a h3 with ⟨w, hw, haw⟩ | hsep
        · exact Or.inl ⟨w, List.mem_cons_of_mem _ hw, haw⟩
        · exact Or.inr hsep

lemma splitAux_within : ∀ (s acc : List Char) (t : List Char),
    t ∈ splitAux s acc → t <:+: acc.reverse ++ s := by
  intro s
  induction s with
  | nil =>
    intro acc t ht
    by_cases hacc : acc = []
    · rw [splitAux, if_pos hacc] at ht; cases ht
    · rw [splitAux, if_neg hacc] at ht
      rw [List.mem_singleton.mp ht, List.append_nil]
  | cons c cs ih =>
    intro acc t ht
    by_cases hsp : isPySpace c = true
    · rw [splitAux, if_pos hsp] at ht
      by_cases hacc : acc = []
      · rw [if_pos hacc] at ht
        subst hacc
        have := ih [] t ht
        rw [List.reverse_nil, List.nil_append] at this ⊢
        exact infix_cons_of c this
      · rw [if_neg hacc] at ht
        rcases List.mem_cons.mp ht with rfl | ht'
        · exact ⟨[], c :: cs, by simp⟩
        · have := ih [] t ht'
          rw [List.reverse_nil, List.nil_append] at this
          exact infix_append_left_of acc.reverse (infix_cons_of c this)
    · rw [splitAux, if_neg hsp] at ht
      have := ih (c :: acc) t ht
      rw [List.reverse_cons, List.append_assoc] at this
      exact this

lemma splitAux_tokens : ∀ (s acc : List Char),
    (∀ a ∈ acc, isPySpace a = false) →
    ∀ t ∈ splitAux s acc, t ≠ [] ∧ ∀ a ∈ t, isPySpace a = false := by
  intro s
  induction s with
  | nil =>
    intro acc hacc t ht
    by_cases h0 : acc = []
    · rw [splitAux, if_pos h0] at ht; cases ht
    · rw [splitAux, if_neg h0] at ht
      rw [List.mem_singleton.mp ht]
      refine ⟨by simpa using h0, ?_⟩
      intro a ha
      exact hacc a (List.mem_reverse.mp ha)
  | cons c cs ih =>
    intro acc hacc t ht
    by_cases hsp : isPySpace c = true
    · rw [splitAux, if_pos hsp] at ht
      by_cases h0 : acc = []
      · rw [if_pos h0] at ht
        exact ih [] (by intro a ha; cases ha) t ht
      · rw [if_neg h0] at ht
        rcases List.mem_cons.mp ht with rfl | ht'
        · refine ⟨by simpa using h0, ?_⟩
          intro a ha
          exact hacc a (List.mem_reverse.mp ha)
        · exact ih [] (by intro a ha; cases ha) t ht'
    · rw [splitAux, if_neg hsp] at ht
      refine ih (c :: acc) ?_ t ht
      intro a ha
      rcases List.mem_cons.mp ha with rfl | ha'
      · exact Bool.not_eq_true _ ▸ hsp
      · exact hacc a ha'

lemma splitAux_nospace : ∀ (t acc : List Char),
    (∀ a ∈ t, isPySpace a = false) → acc.reverse ++ t ≠ [] →
    splitAux t acc = [acc.reverse ++ t] := by
  intro t
  induction t with
  | nil =>
    intro acc _ hne
    rw [List.append_nil] at hne ⊢
    have h0 : acc ≠ [] := by
      intro h
      exact hne (by rw [h, List.reverse_nil])
    rw [splitAux, if_neg h0]
  | cons c cs ih =>
    intro acc hch hne
    have hc : isPySpace c = false := hch c (List.mem_cons_self _ _)
    rw [splitAux, if_neg (by rw [hc]; exact Bool.false_ne_true)]
    have := ih (c :: acc) (fun a ha => hch a (List.mem_cons_of_mem _ ha))
      (by simp)
    rw [this, List.reverse_cons, List.append_assoc]
    rfl

lemma splitAux_word_sep : ∀ (t acc R : List Char),
    (∀ a ∈ t, isPySpace a = false) → acc.reverse ++ t ≠ [] →
    splitAux (t ++ ' ' :: R) acc = (acc.reverse ++ t) :: splitAux R [] := by
  intro t
  induction t with
  | nil =>
    intro acc R _ hne
    rw [List.append_nil] at hne ⊢
    have h0 : acc ≠ [] := by
      intro h
      exact hne (by rw [h, List.reverse_nil])
    rw [List.nil_append, splitAux, if_pos (by decide), if_neg h0]
  | cons c cs ih =>
    intro acc R hch hne
    have hc : isPySpace c = false := hch c (List.mem_cons_self _ _)
    rw [List.cons_append, splitAux, if_neg (by rw [hc]; exact Bool.false_ne_true)]
    have := ih (c :: acc) R (fun a ha => hch a (List.mem_cons_of_mem _ ha))
      (by simp)
    rw [this, List.reverse_cons, List.append_assoc]
    rfl

lemma split_join : ∀ (L : List (List Char)),
    (∀ t ∈ L, t ≠ [] ∧ ∀ a ∈ t, isPySpace a = false) →
    pySplit (joinSepL [' '] L) = L := by
  intro L
  induction L with
  | nil => intro _; rfl
  | cons t L ih =>
    intro hL
    cases L with
    | nil =>
      show splitAux t [] = [t]
      have h := hL t (List.mem_singleton_self t)
      have := splitAux_nospace t [] h.2 (by simpa using h.1)
      rw [this, List.reverse_nil, List.nil_append]
    | cons u us =>
      have ht := hL t (List.mem_cons_self _ _)
      show splitAux (t ++ [' '] ++ joinSepL [' '] (u :: us)) [] = t :: u :: us
      rw [List.append_assoc, List.singleton_append]
      rw [splitAux_word_sep t [] _ ht.2 (by simpa using ht.1)]
      rw [show splitAux (joinSepL [' '] (u :: us)) [] = pySplit (joinSepL [' '] (u :: us)) from rfl]
      rw [ih (fun w hw => hL w (List.mem_cons_of_mem _ hw))]
      rw [List.reverse_nil, List.nil_append]

lemma noDD_mid (R : List Char) (hR : hasDD R = false) :
    ∀ (t : List Char), hasDD t = false → hasDD (t ++ ' ' :: R) = false := by
  intro t
  induction t with
  | nil =>
    intro _
    rw [List.nil_append, hasDD_cons_ne (by decide)]
    exact hR
  | cons c cs ih =>
    intro ht
    cases cs with
    | nil =>
      show ((c == '-' && ' ' == '-') || hasDD (' ' :: R)) = false
      rw [show (' ' == '-') = false from rfl, Bool.and_false, Bool.false_or,
        hasDD_cons_ne (by decide)]
      exact hR
    | cons d ds =>
      have h' : ((c == '-' && d == '-') || hasDD (d :: ds)) = false := ht
      rcases Bool.or_eq_false_iff.mp h' with ⟨h1, h2⟩
      show ((c == '-' && d == '-') || hasDD ((d :: ds) ++ ' ' :: R)) = false
      rw [h1, Bool.false_or]
      exact ih h2

lemma noDD_join : ∀ (L : List (List Char)),
    (∀ t ∈ L, hasDD t = false) → hasDD (joinSepL [' '] L) = false := by
  intro L
  induction L with
  | nil => intro _; rfl
  | cons t L ih =>
    intro hL
    cases L with
    | nil => exact hL t (List.mem_singleton_self t)
    | cons u us =>
      show hasDD (t ++ [' '] ++ joinSepL [' '] (u :: us)) = false
      rw [List.append_assoc, List.singleton_append]
      exact noDD_mid _ (ih (fun w hw => hL w (List.mem_cons_of_mem _ hw)))
        t (hL t (List.mem_cons_self _ _))

lemma clean_pass2 (s5 : List Char) (hdd : hasDD s5 = false)
    (h1 : '“' ∉ s5) (h2 : '”' ∉ s5) (h3 : '‘' ∉ s5) (h4 : '’' ∉ s5) :
    clean_text (String.mk (joinSepL [' '] (pySplit s5)))
      = String.mk (joinSepL [' '] (pySplit s5)) := by
  have hTprop : ∀ t ∈ pySplit s5, t ≠ [] ∧ ∀ a ∈ t, isPySpace a = false :=
    splitAux_tokens s5 [] (by intro a ha; cases ha)
  have hmem : ∀ a : Char, a ∈ joinSepL [' '] (pySplit s5) → a ∈ s5 ∨ a = ' ' := by
    intro a ha
    rcases mem_joinSepL [' '] (pySplit s5) a ha with ⟨t, htT, hat⟩ | hsep
    · left
      have hinf := splitAux_within s5 [] t htT
      rw [List.reverse_nil, List.nil_append] at hinf
      exact hinf.sublist.subset hat
    · right
      simpa using hsep
  have hy1 : '“' ∉ joinSepL [' '] (pySplit s5) := by
    intro ha
    rcases hmem _ ha with h | h
    · exact h1 h
    · exact absurd h (by decide)
  have hy2 : '”' ∉ joinSepL [' '] (pySplit s5) := by
    intro ha
    rcases hmem _ ha with h | h
    · exact h2 h
    · exact absurd h (by decide)
  have hy3 : '‘' ∉ joinSepL [' '] (pySplit s5) := by
    intro ha
    rcases hmem _ ha with h | h
    · exact h3 h
    · exact absurd h (by decide)
  have hy4 : '’' ∉ joinSepL [' '] (pySplit s5) := by
    intro ha
    rcases hmem _ ha with h | h
    · exact h4 h
    · exact absurd h (by decide)
  have hydd : hasDD (joinSepL [' '] (pySplit s5)) = false := by
    apply noDD_join
    intro t ht
    cases hv : hasDD t with
    | false => rfl
    | true =>
      have hinf := splitAux_within s5 [] t ht
      rw [List.reverse_nil, List.nil_append] at hinf
      exact absurd (hasDD_within hinf hv) (by simp [hdd])
  show String.mk (joinSepL [' ']
      (pySplit (replDD (repl1 '’' sq (repl1 '‘' sq (repl1 '”' dq
        (repl1 '“' dq (joinSepL [' '] (pySplit s5)))))))))
    = String.mk (joinSepL [' '] (pySplit s5))
  rw [repl1_id hy1, repl1_id hy2, repl1_id hy3, repl1_id hy4, replDD_id hydd,
    split_join (pySplit s5) hTprop]

/-- C6: the normalizer is idempotent — `clean_text (clean_text x) =
clean_text x` for every string `x`. -/
theorem clean_text_idempotent (x : String) :
    clean_text (clean_text x) = clean_text x := by
  have hA : '“' ∉ repl1 '“' dq x.data := not_mem_repl1 (by decide)
  have h1 : '“' ∉ replDD (repl1 '’' sq (repl1 '‘' sq (repl1 '”' dq (repl1 '“' dq x.data)))) :=
    not_mem_replDD_of
      (not_mem_repl1_of (not_mem_repl1_of (not_mem_repl1_of hA (by decide)) (by decide))
        (by decide)) (by decide)
  have hB : '”' ∉ repl1 '”' dq (repl1 '“' dq x.data) := not_mem_repl1 (by decide)
  have h2 : '”' ∉ replDD (repl1 '’' sq (repl1 '‘' sq (repl1 '”' dq (repl1 '“' dq x.data)))) :=
    not_mem_replDD_of
      (not_mem_repl1_of (not_mem_repl1_of hB (by decide)) (by decide)) (by decide)
  have hC : '‘' ∉ repl1 '‘' sq (repl1 '”' dq (repl1 '“' dq x.data)) := not_mem_repl1 (by decide)
  have h3 : '‘' ∉ replDD (repl1 '’' sq (repl1 '‘' sq (repl1 '”' dq (repl1 '“' dq x.data)))) :=
    not_mem_replDD_of (not_mem_repl1_of hC (by decide)) (by decide)
  have hD : '’' ∉ repl1 '’' sq (repl1 '‘' sq (repl1 '”' dq (repl1 '“' dq x.data))) :=
    not_mem_repl1 (by decide)
  have h4 : '’' ∉ replDD (repl1 '’' sq (repl1 '‘' sq (repl1 '”' dq (repl1 '“' dq x.data)))) :=
    not_mem_replDD_of hD (by decide)
  exact clean_pass2 _ (hasDD_replDD _) h1 h2 h3 h4

end Plush
